import Mathlib

/-!
Verification development for the Azure Boards MCP adapter (`src/index.ts`).

The source file contains the module text twice, concatenated; the second copy
(which adds the two comment tools) is the complete program and is the one
embedded here.  Tool handlers are translated as pure functions over:

* `ModuleState` — the module-level constant bindings (`pat`, `orgUrl`, the
  Turndown converter modelled as an opaque-to-us pure function `td`);
* `Env` — the behaviour of the external world during one invocation: the
  work-item-tracking SDK calls, the raw `fetch` endpoints, `Date#toLocaleString`,
  base64/utf8 codecs and WHATWG URL parsing, each a pure function whose result
  is an `Except String` value (`Except.error` models a thrown JS exception).

JS field values read through `String(fields[k] ?? fallback)` are modelled as
already-coerced strings; `??` (nullish coalescing) is `Option.getD`, and JS
truthiness on strings is the `truthy` predicate (null/undefined/"" are falsy).
-/

/-- One entry of `workItem.relations`: `attributes?.name` in the source. -/
structure RelationAttributes where
  name : Option String
deriving DecidableEq

/-- A work-item relation `{rel, url, attributes}` (only `AttachedFile` is interpreted). -/
structure Relation where
  rel : String
  url : String
  attributes : Option RelationAttributes
deriving DecidableEq

/-- External work-item view: optional id, optional field map (values already
String-coerced), optional relation list — mirroring the loose TS casts. -/
structure WorkItem where
  id : Option Nat
  fields : Option (List (String × String))
  relations : Option (List Relation)
deriving DecidableEq

/-- Derived attachment record `{name, url}`. -/
structure Attachment where
  name : String
  url : String
deriving DecidableEq

/-- The `createdBy` sub-object of a comment payload. -/
structure CreatedBy where
  displayName : Option String
deriving DecidableEq

/-- External comment payload: every field optional, as the code defends. -/
structure CommentJson where
  id : Option Nat
  createdBy : Option CreatedBy
  createdDate : Option String
  modifiedDate : Option String
  text : Option String
deriving DecidableEq

/-- Body of the comments-list endpoint response: `data.comments`, `data.count`. -/
structure CommentsPayload where
  comments : Option (List CommentJson)
  count : Option Nat
deriving DecidableEq

/-- A raw `fetch` response for the comment endpoints: status plus the two body
readers `response.text()` / `response.json()`, each of which may throw. -/
structure FetchResp (α : Type) where
  status : Nat
  text : Except String String
  json : Except String α

/-- A raw `fetch` response for `fetch-url`: `content-type` header and body bytes. -/
structure RawResp where
  contentType : Option String
  body : ByteArray

/-- Module-level constants: `pat`, `orgUrl`, and the Turndown service viewed as
a pure HTML-to-Markdown function.  Never mutated after startup. -/
structure ModuleState where
  pat : String
  orgUrl : String
  td : String → String

/-- The external world for one invocation.  `witApi` is the awaited
`witApiPromise` (it may reject); the remaining fields model the SDK calls,
the two comment REST endpoints, the raw fetch, `Date#toLocaleString`,
base64/utf8 codecs, and `new URL(u).searchParams.get("fileName")`
(`none` = the URL constructor threw). -/
structure Env where
  witApi : Except String Unit
  getWorkItem : Nat → Except String (Option WorkItem)
  queryByWiql : String → Except String (List Nat)
  getWorkItems : List Nat → Except String (Option (List WorkItem))
  fetchComments : String → String → Except String (FetchResp CommentsPayload)
  fetchComment : String → String → Except String (FetchResp CommentJson)
  fetchRaw : String → String → Except String RawResp
  toLocale : String → String
  b64s : String → String
  b64 : ByteArray → String
  utf8 : ByteArray → String
  parseUrlFileName : String → Option (Option String)

/-- JS truthiness restricted to `string | null | undefined`: null, undefined
and the empty string are falsy. -/
def truthy : Option String → Bool
  | none => false
  | some s => !(s == "")

/-- Object-key lookup on a field map. -/
def lookupField (fields : List (String × String)) (key : String) : Option String :=
  (fields.find? (fun kv => kv.1 == key)).map (fun kv => kv.2)

/-- The idiom `String(fields[key] ?? fallback)` with values pre-coerced. -/
def fieldStr (fields : List (String × String)) (key fallback : String) : String :=
  (lookupField fields key).getD fallback

/-- Uppercase hex digit, as `encodeURIComponent` emits. -/
def hexDigitUpper (n : Nat) : Char :=
  if n < 10 then Char.ofNat (48 + n) else Char.ofNat (55 + n)

/-- Percent-encoding of one byte value: `%XX` with uppercase hex. -/
def byteToPercent (b : Nat) : String :=
  String.mk ['%', hexDigitUpper (b / 16), hexDigitUpper (b % 16)]

/-- UTF-8 encoding of one scalar value, as byte values. -/
def utf8Bytes (c : Char) : List Nat :=
  let n := c.toNat
  if n < 128 then [n]
  else if n < 2048 then [192 + n / 64, 128 + n % 64]
  else if n < 65536 then [224 + n / 4096, 128 + (n / 64) % 64, 128 + n % 64]
  else [240 + n / 262144, 128 + (n / 4096) % 64, 128 + (n / 64) % 64, 128 + n % 64]

/-- The characters `encodeURIComponent` leaves intact per ECMA-262:
ASCII alphanumerics and `- _ . ! ~ * ( )` and the apostrophe (code 39). -/
def isUriUnescaped (c : Char) : Bool :=
  let n := c.toNat
  decide ((65 ≤ n ∧ n ≤ 90) ∨ (97 ≤ n ∧ n ≤ 122) ∨ (48 ≤ n ∧ n ≤ 57) ∨
    n = 45 ∨ n = 95 ∨ n = 46 ∨ n = 33 ∨ n = 126 ∨ n = 42 ∨ n = 39 ∨ n = 40 ∨ n = 41)

/-- ECMA-262 `encodeURIComponent`: unescaped chars pass through, every other
character is replaced by the percent-encoding of its UTF-8 bytes. -/
def encodeURIComponent (s : String) : String :=
  s.toList.foldl
    (fun acc c =>
      if isUriUnescaped c then acc.push c
      else acc ++ ((utf8Bytes c).foldl (fun a b => a ++ byteToPercent b) ""))
    ""

/-- The regex replace `orgUrl.replace(/\/$/ , "")`: drop one trailing slash. -/
def stripTrailingSlash (s : String) : String :=
  if s.toList.getLast? = some '/' then String.mk s.toList.dropLast else s

/-- Lowercase hex digit for JSON `\u00XX` escapes. -/
def hexDigitLower (n : Nat) : Char :=
  if n < 10 then Char.ofNat (48 + n) else Char.ofNat (87 + n)

/-- `JSON.stringify` escaping of one character inside a string literal. -/
def jsonEscapeChar (c : Char) : String :=
  if c = '"' then "\\\""
  else if c = '\\' then "\\\\"
  else if c.toNat = 8 then "\\b"
  else if c.toNat = 9 then "\\t"
  else if c.toNat = 10 then "\\n"
  else if c.toNat = 12 then "\\f"
  else if c.toNat = 13 then "\\r"
  else if c.toNat < 32 then
    "\\u00" ++ String.mk [hexDigitLower (c.toNat / 16), hexDigitLower (c.toNat % 16)]
  else String.singleton c

/-- `JSON.stringify` of a string value. -/
def jsonEscape (s : String) : String :=
  s.toList.foldl (fun acc c => acc ++ jsonEscapeChar c) ""

/-- `JSON.stringify(attachments, null, 2)`: `[]` when empty, otherwise the
two-space-indented array of `{"name", "url"}` objects in insertion order. -/
def stringifyAttachments (atts : List Attachment) : String :=
  if atts.isEmpty then "[]"
  else
    "[\n" ++
    String.intercalate ",\n"
      (atts.map (fun a =>
        "  \x7b\n    \"name\": \"" ++ jsonEscape a.name ++
        "\",\n    \"url\": \"" ++ jsonEscape a.url ++ "\"\n  \x7d")) ++
    "\n]"

/-- The fallback `rel.attributes?.name ?? "<no name>"`. -/
def attachmentNameOf (r : Relation) : String :=
  (r.attributes.bind (fun a => a.name)).getD "<no name>"

/-- Attachment derivation as written inside the `work-item` tool handler:
filter the relations to `rel === "AttachedFile"` and append the `fileName`
query parameter (`&` when the URL already has a query, else `?`). -/
def workItemToolAttachments (relations : List Relation) : List Attachment :=
  (relations.filter (fun r => r.rel == "AttachedFile")).map (fun r =>
    let name := attachmentNameOf r
    let separator := if r.url.toList.contains '?' then "&" else "?"
    { name := name, url := r.url ++ separator ++ "fileName=" ++ encodeURIComponent name })

/-- Attachment derivation as written inside the `work-item-attachments` tool
handler — the source duplicates the code verbatim. -/
def attachmentsToolAttachments (relations : List Relation) : List Attachment :=
  (relations.filter (fun r => r.rel == "AttachedFile")).map (fun r =>
    let name := attachmentNameOf r
    let separator := if r.url.toList.contains '?' then "&" else "?"
    { name := name, url := r.url ++ separator ++ "fileName=" ++ encodeURIComponent name })

/-- The `attachmentsSection` local of the `work-item` handler: empty unless at
least one attachment exists. -/
def attachmentsSectionOf (attachments : List Attachment) : String :=
  if attachments.length > 0 then
    "\n\n---\n**Attachments:**\n" ++
      String.intercalate "\n"
        (attachments.map (fun att => "* [" ++ att.name ++ "](" ++ att.url ++ ")"))
  else ""

/-- Everything of the `work-item` Markdown before the attachments section:
linked title, state line, converted user-story and description sections. -/
def workItemBaseMd (st : ModuleState) (id : Nat) (wi : WorkItem) : String :=
  let fields := wi.fields.getD []
  let title := fieldStr fields "System.Title" "<no title>"
  let state := fieldStr fields "System.State" "<no state>"
  let project := fieldStr fields "System.TeamProject" "<no project>"
  let url := stripTrailingSlash st.orgUrl ++ "/" ++ encodeURIComponent project ++
    "/_workitems/edit/" ++ toString id
  let userStoryFormat := st.td (fieldStr fields "Custom.UserStoryFormat" "<no user story format>")
  let desc := st.td (fieldStr fields "System.Description" "<no description>")
  "# [" ++ title ++ "](" ++ url ++ ")\n\n**State:** " ++ state ++ "\n\n---\n" ++
    userStoryFormat ++ "\n\n---\n" ++ desc

/-- The complete `work-item` Markdown document. -/
def workItemMarkdown (st : ModuleState) (id : Nat) (wi : WorkItem) : String :=
  workItemBaseMd st id wi ++
    attachmentsSectionOf (workItemToolAttachments (wi.relations.getD []))

/-- The `work-item` tool handler.  `Except.error` models an uncaught exception
propagating to the transport. -/
def workItemTool (st : ModuleState) (env : Env) (id : Nat) : Except String String :=
  env.witApi.bind (fun _ =>
  (env.getWorkItem id).bind (fun wi? =>
  match wi? with
  | none => Except.ok ("Work item " ++ toString id ++ " not found.")
  | some wi => Except.ok (workItemMarkdown st id wi)))

/-- The WIQL query string issued by `my-work-items`, verbatim. -/
def wiqlQuery : String :=
  "SELECT [System.Id] FROM WorkItems WHERE [System.AssignedTo] = @Me AND [System.State] IN " ++
  "('Development', 'In Review', 'Merged', 'New', 'Requirements') ORDER BY [System.ChangedDate] DESC"

/-- One Markdown bullet of `my-work-items`. -/
def bulletOf (wi : WorkItem) : String :=
  let fields := wi.fields.getD []
  "* #" ++ (match wi.id with | some n => toString n | none => "?") ++ " – " ++
    fieldStr fields "System.Title" "<no title>" ++ " (**" ++
    fieldStr fields "System.State" "<no state>" ++ "**) - " ++
    fieldStr fields "System.IterationPath" "<no sprint>"

/-- The batch loop of `my-work-items`: `for (let i = 0; i < ids.length; i += 200)`,
each iteration fetching `ids.slice(i, i + 200)` and appending
`(await witApi.getWorkItems(batch)) ?? []` to the accumulator. -/
def fetchBatchesLoop (env : Env) (ids : List Nat) (i : Nat) (acc : List WorkItem) :
    Except String (List WorkItem) :=
  if h : i < ids.length then
    (env.getWorkItems ((ids.drop i).take 200)).bind (fun items =>
      fetchBatchesLoop env ids (i + 200) (acc ++ items.getD []))
  else Except.ok acc
termination_by ids.length - i
decreasing_by simp_wf; omega

/-- The sequence of id batches passed to `getWorkItems` by the loop above,
one list entry per issued batch fetch, in issue order. -/
def batchCalls (ids : List Nat) (i : Nat) : List (List Nat) :=
  if h : i < ids.length then ((ids.drop i).take 200) :: batchCalls ids (i + 200)
  else []
termination_by ids.length - i
decreasing_by simp_wf; omega

/-- The `my-work-items` tool handler.  `env.queryByWiql` returns the ids of
`queryResult.workItems ?? []` (each ref's `id as number`). -/
def myWorkItemsTool (st : ModuleState) (env : Env) : Except String String :=
  env.witApi.bind (fun _ =>
  (env.queryByWiql wiqlQuery).bind (fun ids =>
  if ids.length = 0 then Except.ok "No work items assigned to you."
  else
    (fetchBatchesLoop env ids 0 []).bind (fun workItems =>
    Except.ok (String.intercalate "\n" (workItems.map bulletOf)))))

/-- The TypeError thrown by `(wi as any).relations` when the SDK returned no
work item (`wi` undefined); `work-item-attachments` has no not-found branch. -/
def undefinedRelationsError : String :=
  "TypeError: cannot read relations of undefined"

/-- The `work-item-attachments` tool handler: no try/catch, no not-found
branch; returns `JSON.stringify(attachments, null, 2)`. -/
def attachmentsTool (st : ModuleState) (env : Env) (id : Nat) : Except String String :=
  env.witApi.bind (fun _ =>
  (env.getWorkItem id).bind (fun wi? =>
  match wi? with
  | none => Except.error undefinedRelationsError
  | some wi =>
    Except.ok (stringifyAttachments (attachmentsToolAttachments (wi.relations.getD [])))))

/-- The `comments` endpoint URL built by the `comments` tool, verbatim. -/
def commentsApiUrl (orgUrl project : String) (ticket limit : Nat) : String :=
  stripTrailingSlash orgUrl ++ "/" ++ encodeURIComponent project ++
    "/_apis/wit/workItems/" ++ toString ticket ++ "/comments?$top=" ++ toString limit ++
    "&$orderby=createdDate desc&api-version=7.1-preview"

/-- The single-comment endpoint URL built by the `comment` tool, verbatim. -/
def commentApiUrl (orgUrl project : String) (ticket comment_id : Nat) : String :=
  stripTrailingSlash orgUrl ++ "/" ++ encodeURIComponent project ++
    "/_apis/wit/workItems/" ++ toString ticket ++ "/comments/" ++ toString comment_id ++
    "?api-version=7.1-preview"

/-- The Basic auth header both raw-fetch call sites build from the PAT. -/
def authHeaderOf (env : Env) (st : ModuleState) : String :=
  "Basic " ++ env.b64s (":" ++ st.pat)

/-- The idiom `x ? new Date(x).toLocaleString() : "<no date>"` (JS truthiness). -/
def dateOrDefault (fmt : String → String) (o : Option String) : String :=
  if truthy o then fmt (o.getD "") else "<no date>"

/-- `comment.id ?? "<no id>"` interpolated into a template literal. -/
def idStrOf (c : CommentJson) : String :=
  match c.id with | some n => toString n | none => "<no id>"

/-- `comment.createdBy?.displayName ?? "<unknown>"`. -/
def authorOf (c : CommentJson) : String :=
  (c.createdBy.bind (fun p => p.displayName)).getD "<unknown>"

/-- One `### Comment #…` section of the `comments` tool output. -/
def commentSectionOf (td fmt : String → String) (c : CommentJson) : String :=
  "### Comment #" ++ idStrOf c ++ "\n\n**Author:** " ++ authorOf c ++
    "  \n**Date:** " ++ dateOrDefault fmt c.createdDate ++ "\n\n" ++
    td (c.text.getD "<no content>") ++ "\n\n---"

/-- The `header` local of the `comments` tool: truncation warning when the
reported total exceeds `limit`, plain total otherwise. -/
def commentsHeader (ticket totalCount limit : Nat) : String :=
  let base := "# Comments for Work Item #" ++ toString ticket ++ "\n\n"
  if totalCount > limit then
    base ++ "⚠️ **Showing " ++ toString limit ++ " most recent comments out of " ++
      toString totalCount ++ " total.**\n\n"
  else
    base ++ "**Total:** " ++ toString totalCount ++ " comment" ++
      (if totalCount ≠ 1 then "s" else "") ++ "\n\n"

/-- The try-block of the `comments` tool; `Except.error` is a thrown exception
reaching the surrounding catch. -/
def commentsBody (st : ModuleState) (env : Env) (ticket limit : Nat) : Except String String :=
  env.witApi.bind (fun _ =>
  (env.getWorkItem ticket).bind (fun wi? =>
  match wi? with
  | none => Except.ok ("Work item " ++ toString ticket ++ " not found.")
  | some wi =>
    let project := fieldStr (wi.fields.getD []) "System.TeamProject" ""
    if project = "" then
      Except.ok ("Could not determine project for work item " ++ toString ticket ++ ".")
    else
      (env.fetchComments (commentsApiUrl st.orgUrl project ticket limit)
          (authHeaderOf env st)).bind (fun resp =>
      if ¬ (200 ≤ resp.status ∧ resp.status ≤ 299) then
        if resp.status = 404 then
          Except.ok ("Work item " ++ toString ticket ++
            " has no comments or comments API is not available.")
        else
          resp.text.bind (fun errorText =>
            Except.ok ("Error fetching comments: " ++ toString resp.status ++ " " ++ errorText))
      else
        resp.json.bind (fun data =>
          let comments := data.comments.getD []
          let totalCount := data.count.getD comments.length
          if comments.length = 0 then
            Except.ok ("No comments found for work item " ++ toString ticket ++ ".")
          else
            Except.ok (commentsHeader ticket totalCount limit ++
              String.intercalate "\n\n"
                (comments.map (commentSectionOf st.td env.toLocale)))))))

/-- The `comments` tool handler: the whole body sits in try/catch, so every
thrown exception becomes a text message. -/
def commentsTool (st : ModuleState) (env : Env) (ticket limit : Nat) : String :=
  match commentsBody st env ticket limit with
  | Except.ok t => t
  | Except.error e => "Error fetching comments: " ++ e

/-- The `modifiedSection` local of the `comment` tool: present exactly when the
locale-rendered modified date is truthy and differs from the rendered created
date (the source compares the two rendered strings). -/
def modifiedSectionOf (fmt : String → String) (c : CommentJson) : String :=
  let createdDate := dateOrDefault fmt c.createdDate
  let modifiedDate : Option String :=
    if truthy c.modifiedDate then some (fmt (c.modifiedDate.getD "")) else none
  match modifiedDate with
  | some m => if m ≠ "" ∧ m ≠ createdDate then "  \n**Modified:** " ++ m else ""
  | none => ""

/-- The success Markdown of the `comment` tool. -/
def commentMarkdownOf (td fmt : String → String) (c : CommentJson) : String :=
  "# Comment #" ++ idStrOf c ++ "\n\n**Author:** " ++ authorOf c ++
    "  \n**Created:** " ++ dateOrDefault fmt c.createdDate ++ modifiedSectionOf fmt c ++
    "\n\n---\n\n" ++ td (c.text.getD "<no content>")

/-- The try-block of the `comment` tool. -/
def commentBody (st : ModuleState) (env : Env) (comment_id ticket : Nat) : Except String String :=
  env.witApi.bind (fun _ =>
  (env.getWorkItem ticket).bind (fun wi? =>
  match wi? with
  | none => Except.ok ("Work item " ++ toString ticket ++ " not found.")
  | some wi =>
    let project := fieldStr (wi.fields.getD []) "System.TeamProject" ""
    if project = "" then
      Except.ok ("Could not determine project for work item " ++ toString ticket ++ ".")
    else
      (env.fetchComment (commentApiUrl st.orgUrl project ticket comment_id)
          (authHeaderOf env st)).bind (fun resp =>
      if ¬ (200 ≤ resp.status ∧ resp.status ≤ 299) then
        if resp.status = 404 then
          Except.ok ("Comment " ++ toString comment_id ++ " not found in work item " ++
            toString ticket ++ ".")
        else
          resp.text.bind (fun errorText =>
            Except.ok ("Error fetching comment: " ++ toString resp.status ++ " " ++ errorText))
      else
        resp.json.bind (fun comment =>
          Except.ok (commentMarkdownOf st.td env.toLocale comment)))))

/-- The `comment` tool handler with its surrounding try/catch. -/
def commentTool (st : ModuleState) (env : Env) (comment_id ticket : Nat) : String :=
  match commentBody st env comment_id ticket with
  | Except.ok t => t
  | Except.error e => "Error fetching comment: " ++ e

/-- A response content block: `{type:"text"}`, `{type:"image"}` or
`{type:"resource"}` as produced by the handlers. -/
inductive Content where
  | text (body : String) (name : Option String)
  | image (data mimeType : String) (name : Option String)
  | resource (uri blob mimeType : String) (name : Option String)

/-- The `fetch-url` tool handler: authenticated GET, then a strict MIME-prefix
branch image → text → resource. -/
def fetchUrlTool (st : ModuleState) (env : Env) (url : String) (overrideName : Option String) :
    Except String Content :=
  (env.fetchRaw url (authHeaderOf env st)).bind (fun response =>
  let mimeType := response.contentType.getD ""
  let extractedName : Option String :=
    match env.parseUrlFileName url with
    | none => none
    | some v => v
  let finalName := match overrideName with | some n => some n | none => extractedName
  if mimeType.startsWith "image/" then
    Except.ok (Content.image (env.b64 response.body) mimeType finalName)
  else if mimeType.startsWith "text/" then
    Except.ok (Content.text (env.utf8 response.body) finalName)
  else
    Except.ok (Content.resource url (env.b64 response.body) mimeType finalName))

/-- A tool invocation with its validated arguments. -/
inductive OpCall where
  | workItem (id : Nat)
  | myWorkItems
  | attachments (id : Nat)
  | fetchUrl (url : String) (name : Option String)
  | comments (ticket limit : Nat)
  | comment (comment_id ticket : Nat)

/-- Dispatch of one invocation.  The returned `ModuleState` is the module state
after the handler ran: no handler assigns to any module-level binding, so each
branch hands back the state it received. -/
def runOp (st : ModuleState) (env : Env) : OpCall → Except String Content × ModuleState
  | OpCall.workItem id => ((workItemTool st env id).map (fun t => Content.text t none), st)
  | OpCall.myWorkItems => ((myWorkItemsTool st env).map (fun t => Content.text t none), st)
  | OpCall.attachments id => ((attachmentsTool st env id).map (fun t => Content.text t none), st)
  | OpCall.fetchUrl url name => (fetchUrlTool st env url name, st)
  | OpCall.comments t l => (Except.ok (Content.text (commentsTool st env t l) none), st)
  | OpCall.comment cid t => (Except.ok (Content.text (commentTool st env cid t) none), st)

/-- Process-level view of the client handle for the memoization claim:
how many times `getWorkItemTrackingApi()` has run, and the memoized promise
value (`none` = not yet created). -/
structure ProcState where
  initCount : Nat
  witApiPromise : Option Nat

/-- The process before the module body runs. -/
def initialProc : ProcState :=
  { initCount := 0, witApiPromise := none }

/-- Evaluation of the top-level statement
`const witApiPromise = connection.getWorkItemTrackingApi()`: it performs the
initialization once and memoizes the resulting handle. -/
def runModuleInit (s : ProcState) : ProcState :=
  { initCount := s.initCount + 1, witApiPromise := some s.initCount }

/-- The process state after module load, before any tool call. -/
def moduleStartup : ProcState :=
  runModuleInit initialProc

/-- `await witApiPromise` inside a handler: reads the memoized value, never
re-runs the initialization. -/
def awaitWitApi (s : ProcState) : Option Nat × ProcState :=
  (s.witApiPromise, s)

/-- Run `n` consecutive handler invocations, collecting the client handle each
one observed. -/
def runAwaits : Nat → ProcState → List (Option Nat) × ProcState
  | 0, s => ([], s)
  | Nat.succ n, s =>
    let r := awaitWitApi s
    let rest := runAwaits n r.2
    (r.1 :: rest.1, rest.2)

/-- A string with a nonempty left part stays nonempty under append. -/
theorem append_left_ne_empty (s t : String) (h : 0 < s.length) : s ++ t ≠ "" := by
  intro he
  have hl := congrArg String.length he
  rw [String.length_append] at hl
  rw [show ("" : String).length = 0 from rfl] at hl
  omega

/-- The batches issued by the loop, concatenated in issue order, are exactly
the suffix of the id list the loop still had to process. -/
theorem batchCalls_join : ∀ (k : Nat) (ids : List Nat) (i : Nat), ids.length - i ≤ k →
    (batchCalls ids i).flatten = ids.drop i := by
  intro k
  induction k with
  | zero =>
    intro ids i h
    unfold batchCalls
    have hni : ¬ i < ids.length := by omega
    rw [dif_neg hni, List.drop_eq_nil_of_le (by omega)]
    rfl
  | succ k ih =>
    intro ids i h
    unfold batchCalls
    by_cases hi : i < ids.length
    · rw [dif_pos hi]
      rw [List.flatten_cons, ih ids (i + 200) (by omega)]
      rw [show ids.drop (i + 200) = (ids.drop i).drop 200 from (List.drop_drop 200 i ids).symm]
      exact List.take_append_drop 200 (ids.drop i)
    · rw [dif_neg hi, List.drop_eq_nil_of_le (by omega)]
      rfl

/-- The number of batch fetches the loop issues is the ceiling of the number
of remaining ids divided by the batch size 200. -/
theorem batchCalls_length : ∀ (k : Nat) (ids : List Nat) (i : Nat), ids.length - i ≤ k →
    (batchCalls ids i).length = (ids.length - i + 199) / 200 := by
  intro k
  induction k with
  | zero =>
    intro ids i h
    unfold batchCalls
    have hni : ¬ i < ids.length := by omega
    rw [dif_neg hni]
    rw [show ids.length - i = 0 by omega]
    rw [show (0 + 199) / 200 = 0 by decide]
    rfl
  | succ k ih =>
    intro ids i h
    unfold batchCalls
    by_cases hi : i < ids.length
    · rw [dif_pos hi]
      rw [List.length_cons, ih ids (i + 200) (by omega)]
      rw [show ids.length - (i + 200) = ids.length - i - 200 by omega]
      have hM : 1 ≤ ids.length - i := by omega
      rw [show ids.length - i + 199 = (ids.length - i - 1) + 200 by omega]
      rw [Nat.add_div_right _ (by norm_num)]
      have hs : (ids.length - i - 200 + 199) / 200 = (ids.length - i - 1) / 200 := by
        by_cases h2 : 200 ≤ ids.length - i
        · rw [show ids.length - i - 200 + 199 = ids.length - i - 1 by omega]
        · rw [show ids.length - i - 200 + 199 = 199 by omega]
          rw [Nat.div_eq_of_lt (by norm_num), Nat.div_eq_of_lt (by omega)]
      omega
    · rw [dif_neg hi]
      rw [show ids.length - i = 0 by omega]
      rfl

/-- Every issued batch carries at most 200 ids. -/
theorem batchCalls_batch_le : ∀ (k : Nat) (ids : List Nat) (i : Nat), ids.length - i ≤ k →
    ∀ b ∈ batchCalls ids i, b.length ≤ 200 := by
  intro k
  induction k with
  | zero =>
    intro ids i h b hb
    unfold batchCalls at hb
    have hni : ¬ i < ids.length := by omega
    rw [dif_neg hni] at hb
    simp at hb
  | succ k ih =>
    intro ids i h b hb
    unfold batchCalls at hb
    by_cases hi : i < ids.length
    · rw [dif_pos hi] at hb
      rcases List.mem_cons.mp hb with hb1 | hb2
      · subst hb1
        rw [List.length_take]
        omega
      · exact ih ids (i + 200) (by omega) b hb2
    · rw [dif_neg hi] at hb
      simp at hb

/-- When every `getWorkItems` call succeeds and returns `f batch`, the batch
loop succeeds and its accumulated result is the concatenation, in issue order,
of `f` applied to each issued batch. -/
theorem fetchBatchesLoop_spec (env : Env) (f : List Nat → List WorkItem)
    (hf : ∀ b, env.getWorkItems b = Except.ok (some (f b))) :
    ∀ (k : Nat) (ids : List Nat) (i : Nat) (acc : List WorkItem), ids.length - i ≤ k →
    fetchBatchesLoop env ids i acc =
      Except.ok (acc ++ ((batchCalls ids i).map f).flatten) := by
  intro k
  induction k with
  | zero =>
    intro ids i acc h
    unfold fetchBatchesLoop batchCalls
    have hni : ¬ i < ids.length := by omega
    rw [dif_neg hni, dif_neg hni]
    simp
  | succ k ih =>
    intro ids i acc h
    unfold fetchBatchesLoop batchCalls
    by_cases hi : i < ids.length
    · rw [dif_pos hi, dif_pos hi, hf]
      simp only [Except.bind, Option.getD_some]
      rw [ih ids (i + 200) _ (by omega)]
      simp [List.append_assoc]
    · rw [dif_neg hi, dif_neg hi]
      simp

/-- C1: for every non-empty id list of length N returned by the WIQL query,
`my-work-items` issues exactly ceil(N/200) batch fetches, each batch carries
at most 200 ids, the batches concatenated in issue order are exactly the
query-order id list, and the rendered bullet list is the fetched work items,
in exactly the order the batched fetches returned them, with no re-sorting. -/
theorem myWorkItems_batching (st : ModuleState) (env : Env) (ids : List Nat)
    (f : List Nat → List WorkItem)
    (hw : env.witApi = Except.ok ())
    (hq : env.queryByWiql wiqlQuery = Except.ok ids)
    (hf : ∀ b, env.getWorkItems b = Except.ok (some (f b)))
    (hne : ids ≠ []) :
    (batchCalls ids 0).length = (ids.length + 199) / 200 ∧
    (∀ b ∈ batchCalls ids 0, b.length ≤ 200) ∧
    (batchCalls ids 0).flatten = ids ∧
    myWorkItemsTool st env =
      Except.ok (String.intercalate "\n"
        ((((batchCalls ids 0).map f).flatten).map bulletOf)) := by
  refine ⟨?_, ?_, ?_, ?_⟩
  · have h := batchCalls_length ids.length ids 0 (by omega)
    simpa using h
  · exact batchCalls_batch_le ids.length ids 0 (by omega)
  · have h := batchCalls_join ids.length ids 0 (by omega)
    simpa using h
  · unfold myWorkItemsTool
    rw [hw]
    simp only [Except.bind]
    rw [hq]
    simp only [Except.bind]
    rw [if_neg (by simp [List.length_eq_zero, hne])]
    rw [fetchBatchesLoop_spec env f hf ids.length ids 0 [] (by omega)]
    simp [Except.bind]

/-- Fixed module state used by the concrete witnesses. -/
def stW : ModuleState :=
  { pat := "p", orgUrl := "https://dev.azure.com/org", td := fun s => s }

/-- Baseline environment for the concrete witnesses. -/
def baseEnv : Env :=
  { witApi := Except.ok ()
    getWorkItem := fun _ => Except.ok none
    queryByWiql := fun _ => Except.ok []
    getWorkItems := fun _ => Except.ok (some [])
    fetchComments := fun _ _ => Except.error "network"
    fetchComment := fun _ _ => Except.error "network"
    fetchRaw := fun _ _ => Except.error "network"
    toLocale := fun d => d
    b64s := fun _ => ""
    b64 := fun _ => ""
    utf8 := fun _ => ""
    parseUrlFileName := fun _ => none }

/-- Concrete batch-fetch behaviour for the C1 witness. -/
def fW : List Nat → List WorkItem :=
  fun b => b.map (fun n => { id := some n, fields := none, relations := none })

/-- Environment whose WIQL query returns ids `[1, 2, 3]`. -/
def envC1 : Env :=
  { baseEnv with
    queryByWiql := fun _ => Except.ok [1, 2, 3]
    getWorkItems := fun b => Except.ok (some (fW b)) }

/-- Witness for `myWorkItems_batching` at the concrete id list `[1, 2, 3]`. -/
theorem myWorkItems_batching_w :
    myWorkItemsTool stW envC1 =
      Except.ok (String.intercalate "\n"
        ((((batchCalls [1, 2, 3] 0).map fW).flatten).map bulletOf)) :=
  (myWorkItems_batching stW envC1 [1, 2, 3] fW rfl rfl (fun _ => rfl)
    (by decide)).2.2.2

/-- C2: the attachment derivations of `work-item` and `work-item-attachments`
are the same function of the relations, so for the same work-item response the
two tools produce byte-identical attachment URL strings: both keep exactly the
`rel == "AttachedFile"` relations and append the same `fileName` parameter. -/
theorem attachments_roundTrip (rels : List Relation) :
    workItemToolAttachments rels = attachmentsToolAttachments rels ∧
    (workItemToolAttachments rels).map (fun a => a.url) =
      (attachmentsToolAttachments rels).map (fun a => a.url) :=
  ⟨rfl, rfl⟩

/-- The attachments section is empty exactly when there are no attachments. -/
theorem attachmentsSection_empty_iff (atts : List Attachment) :
    attachmentsSectionOf atts = "" ↔ atts = [] := by
  unfold attachmentsSectionOf
  by_cases h : atts.length > 0
  · rw [if_pos h]
    constructor
    · intro he
      exact absurd he (append_left_ne_empty _ _ (by decide))
    · intro he
      subst he
      simp at h
  · rw [if_neg h]
    constructor
    · intro _
      exact List.eq_nil_of_length_eq_zero (by omega)
    · intro _
      rfl

/-- C5: the `work-item` Markdown ends with an attachments section that is
empty iff the work item has no `AttachedFile` relation; when at least one
exists, the section lists exactly the filtered relations as Markdown links,
each URL being the relation URL with `fileName=<url-encoded name>` appended
after `&` when the URL already contains `?` and after `?` otherwise. -/
theorem workItem_attachments_section (st : ModuleState) (env : Env) (id : Nat) (wi : WorkItem)
    (hw : env.witApi = Except.ok ())
    (hg : env.getWorkItem id = Except.ok (some wi)) :
    workItemTool st env id = Except.ok (workItemMarkdown st id wi) ∧
    workItemMarkdown st id wi =
      workItemBaseMd st id wi ++
        attachmentsSectionOf (workItemToolAttachments (wi.relations.getD [])) ∧
    (attachmentsSectionOf (workItemToolAttachments (wi.relations.getD [])) = "" ↔
      (wi.relations.getD []).filter (fun r => r.rel == "AttachedFile") = []) ∧
    workItemToolAttachments (wi.relations.getD []) =
      ((wi.relations.getD []).filter (fun r => r.rel == "AttachedFile")).map (fun r =>
        { name := attachmentNameOf r
          url := r.url ++ (if r.url.toList.contains '?' then "&" else "?") ++ "fileName=" ++
            encodeURIComponent (attachmentNameOf r) }) ∧
    ((wi.relations.getD []).filter (fun r => r.rel == "AttachedFile") ≠ [] →
      attachmentsSectionOf (workItemToolAttachments (wi.relations.getD [])) =
        "\n\n---\n**Attachments:**\n" ++ String.intercalate "\n"
          ((workItemToolAttachments (wi.relations.getD [])).map
            (fun att => "* [" ++ att.name ++ "](" ++ att.url ++ ")"))) := by
  refine ⟨?_, rfl, ?_, rfl, ?_⟩
  · unfold workItemTool
    rw [hw]
    simp only [Except.bind]
    rw [hg]
  · rw [attachmentsSection_empty_iff]
    simp [workItemToolAttachments]
  · intro hne
    have hpos : 0 < (workItemToolAttachments (wi.relations.getD [])).length := by
      simp only [workItemToolAttachments, List.length_map]
      exact List.length_pos.mpr hne
    unfold attachmentsSectionOf
    rw [if_pos hpos]

/-- A work item with one `AttachedFile` relation, for the C5 witness. -/
def relW : Relation :=
  { rel := "AttachedFile", url := "http://x/a", attributes := some { name := some "f.txt" } }

/-- Work item carrying `relW`, for the C5 witness. -/
def wiW : WorkItem :=
  { id := some 7
    fields := some [("System.Title", "T"), ("System.State", "S"), ("System.TeamProject", "P")]
    relations := some [relW] }

/-- Environment returning `wiW` for every work-item fetch. -/
def envC5 : Env :=
  { baseEnv with getWorkItem := fun _ => Except.ok (some wiW) }

/-- Witness for `workItem_attachments_section` at `wiW`. -/
theorem workItem_attachments_section_w :
    workItemTool stW envC5 7 = Except.ok (workItemMarkdown stW 7 wiW) ∧
    (attachmentsSectionOf (workItemToolAttachments (wiW.relations.getD [])) = "" ↔
      (wiW.relations.getD []).filter (fun r => r.rel == "AttachedFile") = []) :=
  ⟨(workItem_attachments_section stW envC5 7 wiW rfl rfl).1,
   (workItem_attachments_section stW envC5 7 wiW rfl rfl).2.2.1⟩

/-- A work item carrying none of the optional payload. -/
def emptyWorkItem : WorkItem :=
  { id := none, fields := none, relations := none }

/-- A comment carrying none of the optional payload. -/
def emptyComment : CommentJson :=
  { id := none, createdBy := none, createdDate := none, modifiedDate := none, text := none }

/-- C6: the three cited field-access sites never fail on absent optional
fields — each substitutes its documented placeholder and the operation
returns a normal response: `work-item` renders every placeholder, the
`my-work-items` bullet renders `?`, `<no title>`, `<no state>`, `<no sprint>`,
and the comment section renders `<no id>`, `<unknown>`, `<no date>`,
`<no content>`. -/
theorem fallback_placeholders :
    (∀ env : Env, env.witApi = Except.ok () →
      env.getWorkItem 7 = Except.ok (some emptyWorkItem) →
      workItemTool stW env 7 = Except.ok
        ("# [<no title>](https://dev.azure.com/org/%3Cno%20project%3E/_workitems/edit/7)" ++
         "\n\n**State:** <no state>\n\n---\n<no user story format>\n\n---\n<no description>")) ∧
    bulletOf emptyWorkItem = "* #? – <no title> (**<no state>**) - <no sprint>" ∧
    commentSectionOf (fun s => s) (fun d => d) emptyComment =
      "### Comment #<no id>\n\n**Author:** <unknown>  \n**Date:** <no date>\n\n<no content>\n\n---" ∧
    workItemToolAttachments [{ rel := "AttachedFile", url := "u", attributes := none }] =
      [{ name := "<no name>", url := "u?fileName=%3Cno%20name%3E" }] := by
  refine ⟨?_, by decide, by decide, by decide⟩
  intro env hw hg
  unfold workItemTool
  rw [hw]
  simp only [Except.bind]
  rw [hg]
  simp only [Except.bind]
  exact congrArg Except.ok (by decide)

/-- Environment returning the all-absent work item. -/
def envC6 : Env :=
  { baseEnv with getWorkItem := fun _ => Except.ok (some emptyWorkItem) }

/-- Witness for `fallback_placeholders` at the all-absent work item. -/
theorem fallback_placeholders_w :
    workItemTool stW envC6 7 = Except.ok
      ("# [<no title>](https://dev.azure.com/org/%3Cno%20project%3E/_workitems/edit/7)" ++
       "\n\n**State:** <no state>\n\n---\n<no user story format>\n\n---\n<no description>") :=
  fallback_placeholders.1 envC6 rfl rfl

/-- C7: `work-item-attachments` has no not-found branch and no try/catch: a
fetched work item without relations yields the pretty-printed empty JSON
array `[]` (a success, not an error); a rejected SDK call propagates as an
error to the transport; and an undefined work item makes the unguarded
`.relations` access itself throw, again propagating. -/
theorem attachmentsTool_spec (st : ModuleState) (env : Env) (id : Nat) :
    (∀ wi : WorkItem, env.witApi = Except.ok () →
      env.getWorkItem id = Except.ok (some wi) → wi.relations = none →
      attachmentsTool st env id = Except.ok "[]") ∧
    (∀ e, env.witApi = Except.error e → attachmentsTool st env id = Except.error e) ∧
    (∀ e, env.witApi = Except.ok () → env.getWorkItem id = Except.error e →
      attachmentsTool st env id = Except.error e) ∧
    (env.witApi = Except.ok () → env.getWorkItem id = Except.ok none →
      attachmentsTool st env id = Except.error undefinedRelationsError) := by
  refine ⟨?_, ?_, ?_, ?_⟩
  · intro wi hw hg hrel
    unfold attachmentsTool
    rw [hw]
    simp only [Except.bind]
    rw [hg]
    simp only [Except.bind]
    rw [hrel]
    rfl
  · intro e hw
    unfold attachmentsTool
    rw [hw]
    rfl
  · intro e hw hg
    unfold attachmentsTool
    rw [hw]
    simp only [Except.bind]
    rw [hg]
  · intro hw hg
    unfold attachmentsTool
    rw [hw]
    simp only [Except.bind]
    rw [hg]

/-- Environment whose awaited client promise rejects. -/
def envErrW : Env :=
  { baseEnv with witApi := Except.error "boom" }

/-- Environment whose work-item fetch throws. -/
def envErrG : Env :=
  { baseEnv with getWorkItem := fun _ => Except.error "boom" }

/-- Witness for `attachmentsTool_spec`: empty array on absent relations,
propagated errors on rejected promise / thrown fetch / undefined work item. -/
theorem attachmentsTool_spec_w :
    attachmentsTool stW envC6 7 = Except.ok "[]" ∧
    attachmentsTool stW envErrW 7 = Except.error "boom" ∧
    attachmentsTool stW envErrG 7 = Except.error "boom" ∧
    attachmentsTool stW baseEnv 7 = Except.error undefinedRelationsError :=
  ⟨(attachmentsTool_spec stW envC6 7).1 emptyWorkItem rfl rfl rfl,
   (attachmentsTool_spec stW envErrW 7).2.1 "boom" rfl,
   (attachmentsTool_spec stW envErrG 7).2.2.1 "boom" rfl rfl,
   (attachmentsTool_spec stW baseEnv 7).2.2.2 rfl rfl⟩

/-- Contiguous-sublist test on char lists. -/
def listContainsSeq (pat : List Char) : List Char → Bool
  | [] => pat.isEmpty
  | c :: tl => List.isPrefixOf pat (c :: tl) || listContainsSeq pat tl

/-- Substring test used by the concrete witnesses. -/
def hasSubstr (s pat : String) : Bool :=
  listContainsSeq pat.toList s.toList

/-- C3: on a successful comments fetch the rendered text starts with
`commentsHeader`, whose branch is decided by `totalCount > limit`
(`totalCount` being `data.count ?? comments.length`): when the total exceeds
the limit the header carries the truncation warning naming both numbers,
otherwise it states the plain total with no warning. -/
theorem commentsHeader_spec (st : ModuleState) (env : Env) :
    (∀ (t l : Nat) (wi : WorkItem) (resp : FetchResp CommentsPayload) (data : CommentsPayload),
      env.witApi = Except.ok () →
      env.getWorkItem t = Except.ok (some wi) →
      fieldStr (wi.fields.getD []) "System.TeamProject" "" ≠ "" →
      (∀ u a, env.fetchComments u a = Except.ok resp) →
      (200 ≤ resp.status ∧ resp.status ≤ 299) →
      resp.json = Except.ok data →
      data.comments.getD [] ≠ [] →
      commentsTool st env t l =
        commentsHeader t (data.count.getD (data.comments.getD []).length) l ++
          String.intercalate "\n\n"
            ((data.comments.getD []).map (commentSectionOf st.td env.toLocale))) ∧
    (∀ t c l : Nat, c > l → commentsHeader t c l =
      "# Comments for Work Item #" ++ toString t ++ "\n\n" ++ "⚠️ **Showing " ++
        toString l ++ " most recent comments out of " ++ toString c ++ " total.**\n\n") ∧
    (∀ t c l : Nat, ¬ c > l → commentsHeader t c l =
      "# Comments for Work Item #" ++ toString t ++ "\n\n" ++ "**Total:** " ++
        toString c ++ " comment" ++ (if c ≠ 1 then "s" else "") ++ "\n\n") := by
  refine ⟨?_, ?_, ?_⟩
  · intro t l wi resp data hw hg hp hf hok hj hne
    have hb : commentsBody st env t l = Except.ok
        (commentsHeader t (data.count.getD (data.comments.getD []).length) l ++
          String.intercalate "\n\n"
            ((data.comments.getD []).map (commentSectionOf st.td env.toLocale))) := by
      unfold commentsBody
      rw [hw]
      simp only [Except.bind]
      rw [hg]
      simp only [Except.bind]
      rw [if_neg hp, hf]
      simp only [Except.bind]
      rw [if_neg (not_not_intro hok), hj]
      simp only [Except.bind]
      rw [if_neg (by simp [List.length_eq_zero, hne])]
    unfold commentsTool
    rw [hb]
  · intro t c l h
    unfold commentsHeader
    rw [if_pos h]
  · intro t c l h
    unfold commentsHeader
    rw [if_neg h]

/-- Comment fixture for the comment-tool witnesses. -/
def cW : CommentJson :=
  { id := some 1, createdBy := none, createdDate := none, modifiedDate := none, text := none }

/-- Comments payload reporting a total of 5 while returning 2 comments. -/
def dataW : CommentsPayload :=
  { comments := some [cW, cW], count := some 5 }

/-- Successful comments-endpoint response carrying `dataW`. -/
def respC3 : FetchResp CommentsPayload :=
  { status := 200, text := Except.ok "", json := Except.ok dataW }

/-- Environment resolving work item 10 to `wiW` and serving `respC3`. -/
def envC3 : Env :=
  { baseEnv with
    getWorkItem := fun _ => Except.ok (some wiW)
    fetchComments := fun _ _ => Except.ok respC3 }

/-- Witness for `commentsHeader_spec`: limit 2 against reported total 5 yields
the warning header naming 2 and 5; limit 100 against total 5 yields the plain
header with no warning. -/
theorem commentsHeader_spec_w :
    commentsTool stW envC3 10 2 =
      commentsHeader 10 5 2 ++ String.intercalate "\n\n"
        ([cW, cW].map (commentSectionOf stW.td envC3.toLocale)) ∧
    hasSubstr (commentsHeader 10 5 2) "2" = true ∧
    hasSubstr (commentsHeader 10 5 2) "5" = true ∧
    hasSubstr (commentsHeader 10 5 2) "⚠️" = true ∧
    hasSubstr (commentsHeader 10 5 100) "5" = true ∧
    hasSubstr (commentsHeader 10 5 100) "⚠️" = false :=
  ⟨(commentsHeader_spec stW envC3).1 10 2 wiW respC3 dataW rfl rfl (by decide)
      (fun _ _ => rfl) (by decide) rfl (by decide),
   by decide, by decide, by decide, by decide, by decide⟩

/-- C4: the two comment operations never propagate an error.  A 404 from the
comments endpoint yields the not-found/unavailable text, any other non-2xx
yields a text embedding status code and body, and whenever the try-block
throws (any `Except.error` from any step) the catch converts it into an
error text — the tools' return type is plain text, never a fault. -/
theorem commentTools_errors (st : ModuleState) (env : Env) :
    (∀ (t l : Nat) (wi : WorkItem) (resp : FetchResp CommentsPayload),
      env.witApi = Except.ok () →
      env.getWorkItem t = Except.ok (some wi) →
      fieldStr (wi.fields.getD []) "System.TeamProject" "" ≠ "" →
      (∀ u a, env.fetchComments u a = Except.ok resp) →
      resp.status = 404 →
      commentsTool st env t l =
        "Work item " ++ toString t ++ " has no comments or comments API is not available.") ∧
    (∀ (t l : Nat) (wi : WorkItem) (resp : FetchResp CommentsPayload) (err : String),
      env.witApi = Except.ok () →
      env.getWorkItem t = Except.ok (some wi) →
      fieldStr (wi.fields.getD []) "System.TeamProject" "" ≠ "" →
      (∀ u a, env.fetchComments u a = Except.ok resp) →
      ¬ (200 ≤ resp.status ∧ resp.status ≤ 299) →
      resp.status ≠ 404 →
      resp.text = Except.ok err →
      commentsTool st env t l =
        "Error fetching comments: " ++ toString resp.status ++ " " ++ err) ∧
    (∀ (t l : Nat) (e : String),
      commentsBody st env t l = Except.error e →
      commentsTool st env t l = "Error fetching comments: " ++ e) ∧
    (∀ (cid t : Nat) (wi : WorkItem) (resp : FetchResp CommentJson),
      env.witApi = Except.ok () →
      env.getWorkItem t = Except.ok (some wi) →
      fieldStr (wi.fields.getD []) "System.TeamProject" "" ≠ "" →
      (∀ u a, env.fetchComment u a = Except.ok resp) →
      resp.status = 404 →
      commentTool st env cid t =
        "Comment " ++ toString cid ++ " not found in work item " ++ toString t ++ ".") ∧
    (∀ (cid t : Nat) (wi : WorkItem) (resp : FetchResp CommentJson) (err : String),
      env.witApi = Except.ok () →
      env.getWorkItem t = Except.ok (some wi) →
      fieldStr (wi.fields.getD []) "System.TeamProject" "" ≠ "" →
      (∀ u a, env.fetchComment u a = Except.ok resp) →
      ¬ (200 ≤ resp.status ∧ resp.status ≤ 299) →
      resp.status ≠ 404 →
      resp.text = Except.ok err →
      commentTool st env cid t =
        "Error fetching comment: " ++ toString resp.status ++ " " ++ err) ∧
    (∀ (cid t : Nat) (e : String),
      commentBody st env cid t = Except.error e →
      commentTool st env cid t = "Error fetching comment: " ++ e) := by
  refine ⟨?_, ?_, ?_, ?_, ?_, ?_⟩
  · intro t l wi resp hw hg hp hf h404
    have hb : commentsBody st env t l = Except.ok
        ("Work item " ++ toString t ++ " has no comments or comments API is not available.") := by
      unfold commentsBody
      rw [hw]
      simp only [Except.bind]
      rw [hg]
      simp only [Except.bind]
      rw [if_neg hp, hf]
      simp only [Except.bind]
      rw [if_pos (by rw [h404]; decide), if_pos h404]
    unfold commentsTool
    rw [hb]
  · intro t l wi resp err hw hg hp hf hnok h404 htxt
    have hb : commentsBody st env t l = Except.ok
        ("Error fetching comments: " ++ toString resp.status ++ " " ++ err) := by
      unfold commentsBody
      rw [hw]
      simp only [Except.bind]
      rw [hg]
      simp only [Except.bind]
      rw [if_neg hp, hf]
      simp only [Except.bind]
      rw [if_pos hnok, if_neg h404, htxt]
    unfold commentsTool
    rw [hb]
  · intro t l e hb
    unfold commentsTool
    rw [hb]
  · intro cid t wi resp hw hg hp hf h404
    have hb : commentBody st env cid t = Except.ok
        ("Comment " ++ toString cid ++ " not found in work item " ++ toString t ++ ".") := by
      unfold commentBody
      rw [hw]
      simp only [Except.bind]
      rw [hg]
      simp only [Except.bind]
      rw [if_neg hp, hf]
      simp only [Except.bind]
      rw [if_pos (by rw [h404]; decide), if_pos h404]
    unfold commentTool
    rw [hb]
  · intro cid t wi resp err hw hg hp hf hnok h404 htxt
    have hb : commentBody st env cid t = Except.ok
        ("Error fetching comment: " ++ toString resp.status ++ " " ++ err) := by
      unfold commentBody
      rw [hw]
      simp only [Except.bind]
      rw [hg]
      simp only [Except.bind]
      rw [if_neg hp, hf]
      simp only [Except.bind]
      rw [if_pos hnok, if_neg h404, htxt]
    unfold commentTool
    rw [hb]
  · intro cid t e hb
    unfold commentTool
    rw [hb]

/-- 404 comments-endpoint response. -/
def respList404 : FetchResp CommentsPayload :=
  { status := 404, text := Except.ok "", json := Except.error "no body" }

/-- 500 comments-endpoint response with body text `oops`. -/
def respList500 : FetchResp CommentsPayload :=
  { status := 500, text := Except.ok "oops", json := Except.error "no body" }

/-- 404 single-comment-endpoint response. -/
def respOne404 : FetchResp CommentJson :=
  { status := 404, text := Except.ok "", json := Except.error "no body" }

/-- 500 single-comment-endpoint response with body text `oops`. -/
def respOne500 : FetchResp CommentJson :=
  { status := 500, text := Except.ok "oops", json := Except.error "no body" }

/-- Environment whose comment endpoints answer 404. -/
def envC4a : Env :=
  { baseEnv with
    getWorkItem := fun _ => Except.ok (some wiW)
    fetchComments := fun _ _ => Except.ok respList404
    fetchComment := fun _ _ => Except.ok respOne404 }

/-- Environment whose comment endpoints answer 500 with body `oops`. -/
def envC4b : Env :=
  { baseEnv with
    getWorkItem := fun _ => Except.ok (some wiW)
    fetchComments := fun _ _ => Except.ok respList500
    fetchComment := fun _ _ => Except.ok respOne500 }

/-- Witness for `commentTools_errors`: the 404, non-2xx and thrown-exception
scenarios for both comment tools at concrete inputs. -/
theorem commentTools_errors_w :
    commentsTool stW envC4a 10 2 =
      "Work item 10 has no comments or comments API is not available." ∧
    commentsTool stW envC4b 10 2 = "Error fetching comments: 500 oops" ∧
    commentsTool stW envErrG 10 2 = "Error fetching comments: boom" ∧
    commentTool stW envC4a 3 10 = "Comment 3 not found in work item 10." ∧
    commentTool stW envC4b 3 10 = "Error fetching comment: 500 oops" ∧
    commentTool stW envErrG 3 10 = "Error fetching comment: boom" :=
  ⟨(commentTools_errors stW envC4a).1 10 2 wiW respList404 rfl rfl (by decide)
      (fun _ _ => rfl) rfl,
   (commentTools_errors stW envC4b).2.1 10 2 wiW respList500 "oops" rfl rfl (by decide)
      (fun _ _ => rfl) (by decide) (by decide) rfl,
   (commentTools_errors stW envErrG).2.2.1 10 2 "boom" rfl,
   (commentTools_errors stW envC4a).2.2.2.1 3 10 wiW respOne404 rfl rfl (by decide)
      (fun _ _ => rfl) rfl,
   (commentTools_errors stW envC4b).2.2.2.2.1 3 10 wiW respOne500 "oops" rfl rfl (by decide)
      (fun _ _ => rfl) (by decide) (by decide) rfl,
   (commentTools_errors stW envErrG).2.2.2.2.2 3 10 "boom" rfl⟩

/-- C9: `get-comment` output carries the `**Modified:**` line exactly when the
comment has a truthy `modifiedDate` whose locale rendering differs from the
rendered created date (the source compares the two rendered strings); when it
is absent or equal the section is empty.  The success Markdown embeds the
section between the created date and the separator, and a successful fetch
renders `commentMarkdownOf`. -/
theorem modifiedSection_spec :
    (∀ (fmt : String → String) (c : CommentJson), (∀ d, fmt d ≠ "") →
      ((modifiedSectionOf fmt c ≠ "") ↔
        (truthy c.modifiedDate = true ∧
          fmt (c.modifiedDate.getD "") ≠ dateOrDefault fmt c.createdDate)) ∧
      (truthy c.modifiedDate = true →
        fmt (c.modifiedDate.getD "") ≠ dateOrDefault fmt c.createdDate →
        modifiedSectionOf fmt c = "  \n**Modified:** " ++ fmt (c.modifiedDate.getD ""))) ∧
    (∀ (td fmt : String → String) (c : CommentJson),
      commentMarkdownOf td fmt c =
        "# Comment #" ++ idStrOf c ++ "\n\n**Author:** " ++ authorOf c ++
          "  \n**Created:** " ++ dateOrDefault fmt c.createdDate ++
          modifiedSectionOf fmt c ++ "\n\n---\n\n" ++ td (c.text.getD "<no content>")) ∧
    (∀ (st : ModuleState) (env : Env) (cid t : Nat) (wi : WorkItem)
        (resp : FetchResp CommentJson) (c : CommentJson),
      env.witApi = Except.ok () →
      env.getWorkItem t = Except.ok (some wi) →
      fieldStr (wi.fields.getD []) "System.TeamProject" "" ≠ "" →
      (∀ u a, env.fetchComment u a = Except.ok resp) →
      (200 ≤ resp.status ∧ resp.status ≤ 299) →
      resp.json = Except.ok c →
      commentTool st env cid t = commentMarkdownOf st.td env.toLocale c) := by
  refine ⟨?_, fun _ _ _ => rfl, ?_⟩
  · intro fmt c hfmt
    unfold modifiedSectionOf
    cases hc : c.modifiedDate with
    | none =>
      simp [truthy]
    | some d =>
      by_cases hd : d = ""
      · subst hd
        simp [truthy]
      · by_cases he : fmt d = dateOrDefault fmt c.createdDate
        · simp [truthy, hd, he]
        · have hne := append_left_ne_empty "  \n**Modified:** " (fmt d) (by decide)
          simp [truthy, hd, he, hfmt d, hne]
  · intro st env cid t wi resp c hw hg hp hf hok hj
    have hb : commentBody st env cid t =
        Except.ok (commentMarkdownOf st.td env.toLocale c) := by
      unfold commentBody
      rw [hw]
      simp only [Except.bind]
      rw [hg]
      simp only [Except.bind]
      rw [if_neg hp, hf]
      simp only [Except.bind]
      rw [if_neg (not_not_intro hok), hj]
    unfold commentTool
    rw [hb]

/-- Comment with a modified date and no created date. -/
def cModW : CommentJson :=
  { id := some 2, createdBy := none, createdDate := none,
    modifiedDate := some "2020-01-01", text := none }

/-- Successful single-comment response carrying `cModW`. -/
def respC9 : FetchResp CommentJson :=
  { status := 200, text := Except.ok "", json := Except.ok cModW }

/-- Environment resolving the work item and serving `respC9`. -/
def envC9 : Env :=
  { baseEnv with
    getWorkItem := fun _ => Except.ok (some wiW)
    fetchComment := fun _ _ => Except.ok respC9 }

/-- Witness for `modifiedSection_spec`: a comment with a modified date and no
created date shows the Modified line; a comment without one does not. -/
theorem modifiedSection_spec_w :
    ((modifiedSectionOf (fun _ => "X") cModW ≠ "") ↔
      (truthy cModW.modifiedDate = true ∧
        (fun _ : String => "X") (cModW.modifiedDate.getD "") ≠
          dateOrDefault (fun _ => "X") cModW.createdDate)) ∧
    commentTool stW envC9 2 10 = commentMarkdownOf stW.td envC9.toLocale cModW ∧
    hasSubstr (commentMarkdownOf (fun s => s) (fun d => d) cModW) "**Modified:**" = true ∧
    hasSubstr (commentMarkdownOf (fun s => s) (fun d => d) cW) "**Modified:**" = false :=
  ⟨(modifiedSection_spec.1 (fun _ => "X") cModW
      (fun _ => by show ("X" : String) ≠ ""; decide)).1,
   modifiedSection_spec.2.2 stW envC9 2 10 wiW respC9 cModW rfl rfl (by decide)
     (fun _ _ => rfl) (by decide) rfl,
   by decide, by decide⟩

/-- C8 counterexample: at `moduleStartup` — after module load, before any tool
invocation awaits the client — the initialization has already run once and the
memoized promise already holds the handle, refuting lazy creation on the first
`client()` call. -/
theorem witApi_eager_cex :
    moduleStartup.initCount = 1 ∧ ¬ (moduleStartup.witApiPromise = none) := by
  decide

/-- C8 (amended): the client handle is created exactly once, at module startup
before any operation runs, and memoized; every subsequent invocation awaits
the same shared handle and never re-runs the initialization. -/
theorem witApiPromise_shared (n : Nat) :
    (runAwaits n moduleStartup).1 = List.replicate n (some 0) ∧
    (runAwaits n moduleStartup).2 = moduleStartup ∧
    moduleStartup.initCount = 1 := by
  have h : ∀ (m : Nat) (s : ProcState),
      runAwaits m s = (List.replicate m s.witApiPromise, s) := by
    intro m
    induction m with
    | zero => intro s; rfl
    | succ m ih => intro s; simp [runAwaits, awaitWitApi, ih, List.replicate_succ]
  refine ⟨?_, ?_, rfl⟩
  · rw [h]
    rfl
  · rw [h]

/-- C10: every operation is deterministic and stateless: dispatching any
invocation returns the module state unchanged (no handler writes a
module-level binding), so a second run of the same operation with the same
arguments against the same environment responses produces the identical
result block. -/
theorem runOp_stateless (st : ModuleState) (env : Env) (c : OpCall) :
    (runOp st env c).2 = st ∧
    (runOp st env c).1 = (runOp (runOp st env c).2 env c).1 := by
  cases c <;> exact ⟨rfl, rfl⟩
